import Mathlib

/-!
Verification of the mood-playlist generator's two core components:
the LLM artist-list client (`src/groq_api.py`, class `GroqMusicArtistService`)
and the mood-aggregation step (`src/face_mood_analyzer.py`,
`get_mood_from_webcam`, lines 120-134).

Strings are modelled as `List Char`.  Python `str` methods used by the code
(`strip`, `lower`, `casefold`, `split`, `replace`, the two `re.sub` marker
patterns and the fenced-code-block pattern) are embedded as executable
functions over `List Char`, faithful to the CPython semantics on the
character sets the code manipulates (case mapping is modelled on ASCII,
where `str.lower` and `str.casefold` agree).
Python `float` configuration values (`temperature`, `backoff_initial`,
`backoff_max`) are modelled as rationals; Python `int` as `Int`.
-/

/-- Strings of the Python program, modelled as lists of characters. -/
abbrev Str := List Char

/-- Shorthand turning a Lean string literal into the `Str` model. -/
def str (s : String) : Str := s.data

/-- Python `\s` / `str.strip` whitespace, ASCII part:
space, tab, newline, carriage return, vertical tab, form feed. -/
def pyIsSpace (c : Char) : Bool :=
  c == ' ' || c == '\t' || c == '\n' || c == '\r' || c == '\x0b' || c == '\x0c'

/-- Drop a trailing run of characters satisfying `p`. -/
def dropTrailingWhile (p : Char → Bool) (l : Str) : Str :=
  (l.reverse.dropWhile p).reverse

/-- Python `str.strip()`: remove leading and trailing whitespace. -/
def pyStrip (l : Str) : Str :=
  dropTrailingWhile pyIsSpace (l.dropWhile pyIsSpace)

/-- Python `str.lower()`, modelled on ASCII (the only case-carrying
characters the parser's marker check compares against). -/
def pyLower (l : Str) : Str := l.map Char.toLower

/-- Python `str.casefold()`; on ASCII it coincides with `lower`. -/
def pyCasefold (l : Str) : Str := pyLower l

/-- Python substring test `needle in haystack`. -/
def containsSub (needle : Str) : Str → Bool
  | [] => needle.isEmpty
  | c :: rest => needle.isPrefixOf (c :: rest) || containsSub needle rest

/-- Python `str.split(sep)` for a non-empty separator, via fuel
(`fuel = length + 1` suffices: every step consumes at least one character). -/
def splitOnSepFuel (sep : Str) : Nat → Str → Str → List Str
  | 0, acc, _ => [acc.reverse]
  | _ + 1, acc, [] => [acc.reverse]
  | fuel + 1, acc, c :: rest =>
    if sep.isPrefixOf (c :: rest) then
      acc.reverse :: splitOnSepFuel sep fuel [] ((c :: rest).drop sep.length)
    else
      splitOnSepFuel sep fuel (c :: acc) rest

/-- Python `str.split(sep)`. -/
def splitOnSep (sep l : Str) : List Str :=
  splitOnSepFuel sep (l.length + 1) [] l

/-- The three-backtick fence delimiter. -/
def fenceStr : Str := str "```"

/-- One left-to-right scanning pass of
`re.sub(r"^```[a-zA-Z0-9]*\s*|\s*```$", "", text, flags=re.MULTILINE)`.
The Bool argument records whether the current position is at a line start
(`^` in MULTILINE mode); `$` matches before a newline or at the end.
Fuel `length + 1` suffices: every step consumes at least one character. -/
def stripFencesGo : Nat → Bool → Str → Str
  | 0, _, l => l
  | fuel + 1, atLineStart, l =>
    match l with
    | [] => []
    | c :: rest =>
      if atLineStart && fenceStr.isPrefixOf l then
        -- first alternative: "```" then greedy [a-zA-Z0-9]* then greedy \s*
        let r1 := (l.drop 3).dropWhile Char.isAlphanum
        let ws := r1.takeWhile pyIsSpace
        let r2 := r1.dropWhile pyIsSpace
        stripFencesGo fuel (ws.getLast? == some '\n') r2
      else
        let r := l.dropWhile pyIsSpace
        if fenceStr.isPrefixOf r &&
            ((r.drop 3).isEmpty || (r.drop 3).head? == some '\n') then
          -- second alternative: greedy \s* then "```" then line end
          stripFencesGo fuel false (r.drop 3)
        else
          c :: stripFencesGo fuel (c == '\n') rest

/-- The fenced-code-delimiter removal applied by `_parse_artists`. -/
def stripFences (l : Str) : Str := stripFencesGo (l.length + 1) true l

/-- The characters of the regex class `[\-\*••]` (`•` is `•`). -/
def isBulletMarker (c : Char) : Bool := c == '-' || c == '*' || c == '•'

/-- `re.sub(r"^\s*(?:[\-\*••]|[0-9]{1,2}[.)])\s*", "", line)`:
strip one leading list marker (dash, asterisk, bullet, or 1-2 digit
numbering followed by `.` or `)`).  When the pattern does not match, the
line is returned unchanged (including its leading whitespace). -/
def stripListMarker (l : Str) : Str :=
  match l.dropWhile pyIsSpace with
  | [] => l
  | c :: rest =>
    if isBulletMarker c then rest.dropWhile pyIsSpace
    else if c.isDigit then
      match rest with
      | d :: p :: rest2 =>
        if d.isDigit && (p == '.' || p == ')') then rest2.dropWhile pyIsSpace
        else if d == '.' || d == ')' then (p :: rest2).dropWhile pyIsSpace
        else l
      | [d] => if d == '.' || d == ')' then [] else l
      | [] => l
    else l

/-- The characters of the regex class `["'“”‘’]`. -/
def isQuoteChar (c : Char) : Bool :=
  c == '"' || c == '\'' || c == '“' || c == '”' || c == '‘' || c == '’'

/-- `re.sub(r"^[\"'“”‘’]+|[\"'“”‘’]+$", "", item)`: strip the leading and
trailing runs of quote characters. -/
def stripQuotes (l : Str) : Str :=
  dropTrailingWhile isQuoteChar (l.dropWhile isQuoteChar)

/-- The preamble marker substrings checked by `_parse_artists`. -/
def preambleMarkers : List Str :=
  [str "artists:", str "here are", str "list:", str "output", str "names:"]

/-- `any(prefix in item.lower() for prefix in [...])`. -/
def hasPreamble (item : Str) : Bool :=
  preambleMarkers.any (fun m => containsSub m (pyLower item))

/-- One character of the regex class
`[A-Za-zÀ-ɏЀ-ӿ぀-ヿ一-鿿가-힯]`. -/
def isBroadLetter (c : Char) : Bool :=
  let n := c.toNat
  (0x41 ≤ n && n ≤ 0x5A) || (0x61 ≤ n && n ≤ 0x7A) ||
  (0xC0 ≤ n && n ≤ 0x24F) || (0x400 ≤ n && n ≤ 0x4FF) ||
  (0x3040 ≤ n && n ≤ 0x30FF) || (0x4E00 ≤ n && n ≤ 0x9FFF) ||
  (0xAC00 ≤ n && n ≤ 0xD7AF)

/-- `re.search` of the broad letter class: some character is a letter. -/
def hasBroadLetter (item : Str) : Bool := item.any isBroadLetter

/-- Python list slice `lst[:n]` (negative `n` counts from the end). -/
def pySliceTo (l : List α) (n : Int) : List α :=
  if n < 0 then l.take ((l.length : Int) + n).toNat else l.take n.toNat

/-- The single-line re-splitting step of `_parse_artists`:
`if len(lines) == 1 and ("," in lines[0] or " • " in lines[0] or " | " in lines[0])`,
with `sep` assigned `","`, then reassigned `" • "` if present, then
reassigned `" | "` if present; pieces are stripped and empties dropped. -/
def resplitSingleLine (lines : List Str) : List Str :=
  match lines with
  | [l] =>
    if containsSub (str ",") l || containsSub (str " • ") l ||
        containsSub (str " | ") l then
      let sep := str ","
      let sep := if containsSub (str " • ") l then str " • " else sep
      let sep := if containsSub (str " | ") l then str " | " else sep
      ((splitOnSep sep l).map pyStrip).filter (fun p => p ≠ [])
    else lines
  | _ => lines

/-- The two item-normalisation statements at the top of the cleaning loop:
`item = re.sub(marker, "", line).strip()` then
`item = re.sub(quotes, "", item).strip()`. -/
def cleanItem (line : Str) : Str :=
  pyStrip (stripQuotes (pyStrip (stripListMarker line)))

/-- The per-line cleaning loop of `_parse_artists`: strip one list marker,
strip surrounding quotes, drop preamble lines and letterless lines,
deduplicate case-insensitively (`seen` holds the casefolded keys), and
break as soon as the accumulator reaches `target_count` entries. -/
def cleanLoop (target_count : Int) : List Str → List Str → List Str → List Str
  | [], _, cleaned => cleaned
  | line :: rest, seen, cleaned =>
    let item := cleanItem line
    if hasPreamble item then cleanLoop target_count rest seen cleaned
    else if !hasBroadLetter item then cleanLoop target_count rest seen cleaned
    else if pyCasefold item ∈ seen then cleanLoop target_count rest seen cleaned
    else if ((cleaned ++ [item]).length : Int) ≥ target_count then
      cleaned ++ [item]
    else cleanLoop target_count rest (pyCasefold item :: seen) (cleaned ++ [item])

/-- `GroqMusicArtistService._parse_artists(raw, target_count)`:
empty input yields `[]`; otherwise trim, remove fenced-code delimiters,
drop `\r`, split into non-empty lines, re-split a lone separated line,
clean each line, and truncate to `target_count`. -/
def parse_artists (raw : Str) (target_count : Int) : List Str :=
  if raw = [] then []
  else
    let text := stripFences (pyStrip raw)
    let lines :=
      (splitOnSep (str "\n") (text.filter (fun c => c ≠ '\r'))).filter
        (fun l => pyStrip l ≠ [])
    let cleaned := cleanLoop target_count (resplitSingleLine lines) [] []
    if (cleaned.length : Int) > target_count then pySliceTo cleaned target_count
    else cleaned

example : parse_artists (str "1. Adele\n2. Drake\n3. Adele") 3
    = [str "Adele", str "Drake"] := by decide

example : parse_artists (str "Here are the artists:\nAdele\nDrake") 2
    = [str "Adele", str "Drake"] := by decide

/-- `GroqArtistConfig` (a frozen dataclass).  Python `float` fields are
modelled as rationals, `int` fields as `Int`; the field defaults mirror the
dataclass defaults. -/
structure GroqArtistConfig where
  api_key : Str
  model : Str := str "llama-3.1-8b-instant"
  temperature : ℚ := 1/10
  max_tokens : Int := 256
  retries : Int := 3
  backoff_initial : ℚ := 6/10
  backoff_max : ℚ := 6
  enforce_count : Int := 10
deriving DecidableEq

/-- A `GroqArtistConfig` built with all dataclass defaults. -/
def defaultGroqConfig (api_key : Str) : GroqArtistConfig := { api_key }

/-- The generation backend
(`self.client.chat.completions.create(...)` followed by the extraction
`completion.choices[0].message.content if completion and completion.choices else ""`):
given the attempt number and the system and user prompts, either raise an
exception (`.error`) or produce the raw response text.  The attempt index
captures that distinct calls to the stateless API may return distinct
texts even under identical prompts. -/
def Backend : Type := Nat → Str → Str → Except Unit Str

/-- Observable outcome of one `get_artists` call: the returned list, the
number of backend requests made, and the sequence of `time.sleep` delays
(in seconds, as rationals). -/
structure RunTrace where
  result : List Str
  calls : Nat
  sleeps : List ℚ
deriving DecidableEq

/-- `target_count = count or self.config.enforce_count`:
Python `or` substitutes the default when `count` is `None` or `0`. -/
def effTarget (cfg : GroqArtistConfig) (count : Option Int) : Int :=
  match count with
  | none => cfg.enforce_count
  | some c => if c = 0 then cfg.enforce_count else c

/-- `attempts = max(1, self.config.retries)`. -/
def effAttempts (cfg : GroqArtistConfig) : Nat := (max 1 cfg.retries).toNat

/-- The `system_base` prompt of `get_artists` (an f-string over
`target_count`). -/
def systemBase (target_count : Int) : Str :=
  str "You are a music expert. Output exactly " ++ (toString target_count).data ++
  str (" distinct, well-known, popular recording artists who match the user's mood and optional language. " ++
    "Artists must be primary performers (solo singers, bands, DJs). Use official spellings as on Spotify. " ++
    "Output format: one artist name per line, no numbers, no bullets, no punctuation, no explanations, no extra text. " ++
    "Exclude actors or non-performing composers. If a language is provided, primarily choose artists who release music in that language.")

/-- The per-attempt system prompt: the base, plus a stricter sentence on
attempt 2, plus an exact-line-count demand on attempts 3 and later. -/
def mkSystemPrompt (target_count : Int) (attempt : Nat) : Str :=
  let p := systemBase target_count
  let p := if attempt = 2 then
    p ++ str " Return ONLY the names. Do not include any headings or counts."
  else p
  if attempt ≥ 3 then
    p ++ str " Return EXACTLY " ++ (toString target_count).data ++
      str " lines with ONLY the artist name on each line."
  else p

/-- The user prompt: `" | ".join(["Mood: ...", "Language: ..."])`. -/
def mkUserPrompt (mood : Str) (language : Option Str) : Str :=
  str "Mood: " ++ mood ++
    (match language with
     | some l => str " | Language: " ++ l
     | none => [])

/-- `min(self.config.backoff_initial * (2 ** (attempt - 1)), self.config.backoff_max)`. -/
def backoffDelay (cfg : GroqArtistConfig) (attempt : Nat) : ℚ :=
  min (cfg.backoff_initial * 2 ^ (attempt - 1)) cfg.backoff_max

/-- The retry loop `for attempt in range(1, attempts + 1)` of `get_artists`.
The second `Nat` is the number of loop iterations still to run
(`attempts - attempt + 1` at entry); exhausting it is the fall-through
`return []` after the loop.  On a successful request the parsed list is
returned only when its length equals `target_count`; otherwise the loop
sleeps (when attempts remain) and continues.  An exception sleeps and
continues when attempts remain, and returns `[]` from the final attempt. -/
def getArtistsGo (cfg : GroqArtistConfig) (backend : Backend) (mood : Str)
    (language : Option Str) (target_count : Int) (attempts : Nat) :
    Nat → Nat → RunTrace
  | _, 0 => ⟨[], 0, []⟩
  | attempt, n + 1 =>
    let system_prompt := mkSystemPrompt target_count attempt
    let user_prompt := mkUserPrompt mood language
    match backend attempt system_prompt user_prompt with
    | .ok raw =>
      let artists := parse_artists raw target_count
      if (artists.length : Int) = target_count then ⟨artists, 1, []⟩
      else if attempt < attempts then
        let r := getArtistsGo cfg backend mood language target_count attempts
          (attempt + 1) n
        ⟨r.result, r.calls + 1, backoffDelay cfg attempt :: r.sleeps⟩
      else
        let r := getArtistsGo cfg backend mood language target_count attempts
          (attempt + 1) n
        ⟨r.result, r.calls + 1, r.sleeps⟩
    | .error _ =>
      if attempt < attempts then
        let r := getArtistsGo cfg backend mood language target_count attempts
          (attempt + 1) n
        ⟨r.result, r.calls + 1, backoffDelay cfg attempt :: r.sleeps⟩
      else ⟨[], 1, []⟩

/-- `GroqMusicArtistService.get_artists(mood, language, count)`:
a blank mood returns `[]` with no request; a blank language is dropped;
`count or enforce_count` fixes the target; `max(1, retries)` fixes the
attempt budget; then the retry loop runs starting at attempt 1. -/
def get_artists (cfg : GroqArtistConfig) (backend : Backend) (mood : Str)
    (language : Option Str) (count : Option Int) : RunTrace :=
  if pyStrip mood = [] then ⟨[], 0, []⟩
  else
    let mood := pyStrip mood
    let language := match language with
      | some l => if pyStrip l = [] then none else some l
      | none => none
    let target_count := effTarget cfg count
    let attempts := effAttempts cfg
    getArtistsGo cfg backend mood language target_count attempts 1 attempts

/-- The label `'neutral'`. -/
def neutralStr : Str := str "neutral"

/-- Number of occurrences of `x` in `l` (the count `Counter(l)[x]`). -/
def countOcc (l : List Str) (x : Str) : Nat :=
  (l.filter (fun y => y = x)).length

/-- Index of the first occurrence of `a` in a list (list length when
absent); used to state the first-encountered tie-break. -/
def firstIdx (a : Str) : List Str → Nat
  | [] => 0
  | x :: xs => if x = a then 0 else firstIdx a xs + 1

/-- Scan for `firstOccs`, carrying the set of already-seen keys. -/
def firstOccsGo (seen : List Str) : List Str → List Str
  | [] => []
  | x :: xs =>
    if x ∈ seen then firstOccsGo seen xs
    else x :: firstOccsGo (x :: seen) xs

/-- The distinct elements of `l` in first-occurrence order: the iteration
order of the keys of `Counter(l)` (Python dicts preserve insertion order,
and `Counter` inserts each key at its first occurrence). -/
def firstOccs (l : List Str) : List Str := firstOccsGo [] l

/-- Among the candidate keys (iterated in the given order), the first one
whose `countOcc` in `l` is maximal: `Counter.most_common(1)` returns the
maximal-count entry and breaks ties toward the earlier iteration position
(`heapq.nlargest` is equivalent to a stable descending sort). -/
def pickFirstMax (l : List Str) : List Str → Str
  | [] => []
  | [x] => x
  | x :: y :: rest =>
    let r := pickFirstMax l (y :: rest)
    if countOcc l x < countOcc l r then r else x

/-- `Counter(l).most_common(1)[0][0]`: most frequent element of `l`, ties
broken by first-encountered order.  (Unspecified on `[]`, where Python
would raise `IndexError`; every call site guards non-emptiness.) -/
def mostCommon (l : List Str) : Str := pickFirstMax l (firstOccs l)

/-- `[mood for mood in last_known_emotions if mood != 'neutral']`. -/
def nonNeutral (series : List Str) : List Str :=
  series.filter (fun m => m ≠ neutralStr)

/-- The mood-aggregation step at the end of `get_mood_from_webcam`
(lines 120-134 of `face_mood_analyzer.py`): an empty series defaults to
`'neutral'`; otherwise non-neutral entries are preferred, falling back to
the unfiltered series when every entry is neutral. -/
def get_mood_aggregate (series : List Str) : Str :=
  if series = [] then neutralStr
  else
    let emotional_moods := nonNeutral series
    if emotional_moods ≠ [] then mostCommon emotional_moods
    else mostCommon series

example : get_mood_aggregate [] = neutralStr := by decide

example : get_mood_aggregate [str "happy", str "neutral", str "happy", str "sad"]
    = str "happy" := by decide

example : get_mood_aggregate [str "neutral", str "neutral"] = neutralStr := by
  decide

example : get_mood_aggregate [str "sad", str "happy", str "happy", str "sad"]
    = str "sad" := by decide

theorem firstOccsGo_mem (a : Str) (l : List Str) : ∀ seen,
    a ∈ firstOccsGo seen l ↔ (a ∈ l ∧ a ∉ seen) := by
  induction l with
  | nil => intro seen; simp [firstOccsGo]
  | cons x xs ih =>
    intro seen
    by_cases hx : x ∈ seen
    · simp only [firstOccsGo, if_pos hx, ih seen, List.mem_cons]
      constructor
      · rintro ⟨h1, h2⟩; exact ⟨Or.inr h1, h2⟩
      · rintro ⟨h1 | h1, h2⟩
        · exact absurd (h1 ▸ hx) h2
        · exact ⟨h1, h2⟩
    · simp only [firstOccsGo, if_neg hx, List.mem_cons, ih (x :: seen)]
      constructor
      · rintro (rfl | ⟨h1, h2⟩)
        · exact ⟨Or.inl rfl, hx⟩
        · exact ⟨Or.inr h1, fun hs => h2 (Or.inr hs)⟩
      · rintro ⟨rfl | h1, h2⟩
        · exact Or.inl rfl
        · by_cases hax : a = x
          · exact Or.inl hax
          · exact Or.inr ⟨h1, by simp [List.mem_cons, hax, h2]⟩

theorem firstOccsGo_pairwise (l : List Str) : ∀ seen,
    (firstOccsGo seen l).Pairwise (fun a b => firstIdx a l < firstIdx b l) := by
  induction l with
  | nil => intro seen; simp [firstOccsGo]
  | cons x xs ih =>
    intro seen
    by_cases hx : x ∈ seen
    · simp only [firstOccsGo, if_pos hx]
      refine (ih seen).imp_of_mem ?_
      intro a b ha hb hlt
      have ha' := (firstOccsGo_mem a xs seen).mp ha
      have hb' := (firstOccsGo_mem b xs seen).mp hb
      have hax : x ≠ a := fun h => ha'.2 (h ▸ hx)
      have hbx : x ≠ b := fun h => hb'.2 (h ▸ hx)
      simpa [firstIdx, hax, hbx] using hlt
    · simp only [firstOccsGo, if_neg hx, List.pairwise_cons]
      constructor
      · intro b hb
        have hb' := (firstOccsGo_mem b xs (x :: seen)).mp hb
        have hbx : x ≠ b :=
          fun h => hb'.2 (h ▸ List.mem_cons_self x seen)
        simp [firstIdx, hbx]
      · refine (ih (x :: seen)).imp_of_mem ?_
        intro a b ha hb hlt
        have ha' := (firstOccsGo_mem a xs (x :: seen)).mp ha
        have hb' := (firstOccsGo_mem b xs (x :: seen)).mp hb
        have hax : x ≠ a :=
          fun h => ha'.2 (h ▸ List.mem_cons_self x seen)
        have hbx : x ≠ b :=
          fun h => hb'.2 (h ▸ List.mem_cons_self x seen)
        simpa [firstIdx, hax, hbx] using hlt

theorem firstOccs_mem (a : Str) (l : List Str) : a ∈ firstOccs l ↔ a ∈ l := by
  simp [firstOccs, firstOccsGo_mem]

theorem firstOccs_ne_nil (l : List Str) (h : l ≠ []) : firstOccs l ≠ [] := by
  obtain ⟨x, xs, rfl⟩ := List.exists_cons_of_ne_nil h
  simp [firstOccs, firstOccsGo]

theorem pickFirstMax_mem (l : List Str) : ∀ ks : List Str, ks ≠ [] →
    pickFirstMax l ks ∈ ks := by
  intro ks
  induction ks with
  | nil => intro h; exact absurd rfl h
  | cons x rest ih =>
    intro _
    cases rest with
    | nil => simp [pickFirstMax]
    | cons z rest2 =>
      simp only [pickFirstMax]
      by_cases h : countOcc l x < countOcc l (pickFirstMax l (z :: rest2))
      · rw [if_pos h]
        exact List.mem_cons_of_mem _ (ih (by simp))
      · rw [if_neg h]
        exact List.mem_cons_self _ _

theorem pickFirstMax_le (l : List Str) : ∀ ks y, y ∈ ks →
    countOcc l y ≤ countOcc l (pickFirstMax l ks) := by
  intro ks
  induction ks with
  | nil => intro y h; cases h
  | cons x rest ih =>
    intro y hy
    cases rest with
    | nil =>
      have : y = x := List.mem_singleton.mp hy
      subst this
      simp [pickFirstMax]
    | cons z rest2 =>
      simp only [pickFirstMax]
      by_cases h : countOcc l x < countOcc l (pickFirstMax l (z :: rest2))
      · rw [if_pos h]
        rcases List.mem_cons.mp hy with rfl | hy'
        · exact Nat.le_of_lt h
        · exact ih y hy'
      · rw [if_neg h]
        rcases List.mem_cons.mp hy with rfl | hy'
        · exact Nat.le_refl _
        · exact Nat.le_trans (ih y hy') (Nat.le_of_not_lt h)

theorem pickFirstMax_split (l : List Str) : ∀ ks, ks ≠ [] →
    ∃ pre post, ks = pre ++ pickFirstMax l ks :: post ∧
      ∀ z ∈ pre, countOcc l z < countOcc l (pickFirstMax l ks) := by
  intro ks
  induction ks with
  | nil => intro h; exact absurd rfl h
  | cons x rest ih =>
    intro _
    cases rest with
    | nil => exact ⟨[], [], by simp [pickFirstMax], by simp⟩
    | cons z rest2 =>
      obtain ⟨pre, post, heq, hlt⟩ := ih (by simp)
      simp only [pickFirstMax]
      by_cases h : countOcc l x < countOcc l (pickFirstMax l (z :: rest2))
      · rw [if_pos h]
        refine ⟨x :: pre, post, by rw [List.cons_append, ← heq], ?_⟩
        intro w hw
        rcases List.mem_cons.mp hw with rfl | hw'
        · exact h
        · exact hlt w hw'
      · rw [if_neg h]
        exact ⟨[], z :: rest2, rfl, by simp⟩

theorem mostCommon_mem (l : List Str) (h : l ≠ []) : mostCommon l ∈ l :=
  (firstOccs_mem _ l).mp (pickFirstMax_mem l _ (firstOccs_ne_nil l h))

theorem mostCommon_le (l : List Str) (y : Str) (hy : y ∈ l) :
    countOcc l y ≤ countOcc l (mostCommon l) :=
  pickFirstMax_le l (firstOccs l) y ((firstOccs_mem y l).mpr hy)

theorem mostCommon_firstIdx_le (l : List Str) (h : l ≠ []) (y : Str)
    (hy : y ∈ l) (hcnt : countOcc l y = countOcc l (mostCommon l)) :
    firstIdx (mostCommon l) l ≤ firstIdx y l := by
  obtain ⟨pre, post, heq, hlt⟩ :=
    pickFirstMax_split l (firstOccs l) (firstOccs_ne_nil l h)
  have hyfo : y ∈ firstOccs l := (firstOccs_mem y l).mpr hy
  rw [heq] at hyfo
  have hp := firstOccsGo_pairwise l []
  rw [show firstOccsGo [] l = firstOccs l from rfl, heq] at hp
  rcases List.mem_append.mp hyfo with hpre | hpost
  · exact absurd hcnt (Nat.ne_of_lt (hlt y hpre))
  · rcases List.mem_cons.mp hpost with rfl | hpost'
    · exact Nat.le_refl _
    · exact Nat.le_of_lt
        (((List.pairwise_cons.mp (List.pairwise_append.mp hp).2.1).1) y hpost')

/-- C3: for every MoodSeries, the mood-aggregation step of
`get_mood_from_webcam` returns `"neutral"` when the series is empty;
otherwise, when at least one non-`"neutral"` label is present, the most
frequent non-`"neutral"` label with ties broken by first-encountered order
(so the result is never `"neutral"` in that case); otherwise the most
frequent label over the unfiltered series, which is `"neutral"`. -/
theorem C3_mood_aggregation (series : List Str) :
    (series = [] → get_mood_aggregate series = neutralStr) ∧
    (series ≠ [] → (∃ x ∈ series, x ≠ neutralStr) →
      get_mood_aggregate series ∈ nonNeutral series ∧
      get_mood_aggregate series ≠ neutralStr ∧
      (∀ y ∈ nonNeutral series,
        countOcc (nonNeutral series) y ≤
          countOcc (nonNeutral series) (get_mood_aggregate series)) ∧
      (∀ y ∈ nonNeutral series,
        countOcc (nonNeutral series) y =
          countOcc (nonNeutral series) (get_mood_aggregate series) →
        firstIdx (get_mood_aggregate series) (nonNeutral series) ≤
          firstIdx y (nonNeutral series))) ∧
    (series ≠ [] → (∀ x ∈ series, x = neutralStr) →
      get_mood_aggregate series = neutralStr) := by
  refine ⟨fun h => by simp [get_mood_aggregate, h], ?_, ?_⟩
  · intro hne hex
    obtain ⟨x, hx, hxn⟩ := hex
    have hxe : x ∈ nonNeutral series :=
      List.mem_filter.mpr ⟨hx, by simpa using hxn⟩
    have he : nonNeutral series ≠ [] := fun h => by rw [h] at hxe; cases hxe
    have hagg : get_mood_aggregate series = mostCommon (nonNeutral series) := by
      simp only [get_mood_aggregate, if_neg hne]
      exact if_pos he
    rw [hagg]
    have hmem := mostCommon_mem _ he
    refine ⟨hmem, ?_, ?_, ?_⟩
    · have := (List.mem_filter.mp hmem).2
      simpa using this
    · intro y hy; exact mostCommon_le _ y hy
    · intro y hy hcnt; exact mostCommon_firstIdx_le _ he y hy hcnt
  · intro hne hall
    have he : nonNeutral series = [] := by
      simp only [nonNeutral, List.filter_eq_nil_iff]
      intro a ha
      simpa using hall a ha
    have hagg : get_mood_aggregate series = mostCommon series := by
      simp only [get_mood_aggregate, if_neg hne]
      rw [if_neg (by simp [he])]
    rw [hagg]
    exact hall _ (mostCommon_mem series hne)

/-- Witness for C3 at concrete mood series: the empty series aggregates to
`"neutral"`; `["happy","neutral","happy","sad"]` aggregates to a
non-neutral member of its non-neutral sublist whose count dominates
`"sad"`; in the tied series `["happy","sad","happy","sad"]` the result's
first occurrence is no later than that of the tied `"sad"`; and the
all-neutral series aggregates to `"neutral"`. -/
theorem C3_mood_aggregation_witness :
    get_mood_aggregate [] = neutralStr ∧
    get_mood_aggregate [str "happy", str "neutral", str "happy", str "sad"]
      ∈ nonNeutral [str "happy", str "neutral", str "happy", str "sad"] ∧
    get_mood_aggregate [str "happy", str "neutral", str "happy", str "sad"]
      ≠ neutralStr ∧
    countOcc (nonNeutral [str "happy", str "neutral", str "happy", str "sad"])
        (str "sad") ≤
      countOcc (nonNeutral [str "happy", str "neutral", str "happy", str "sad"])
        (get_mood_aggregate [str "happy", str "neutral", str "happy", str "sad"]) ∧
    firstIdx (get_mood_aggregate [str "happy", str "sad", str "happy", str "sad"])
        (nonNeutral [str "happy", str "sad", str "happy", str "sad"]) ≤
      firstIdx (str "sad")
        (nonNeutral [str "happy", str "sad", str "happy", str "sad"]) ∧
    get_mood_aggregate [str "neutral", str "neutral"] = neutralStr :=
  ⟨(C3_mood_aggregation []).1 rfl,
   ((C3_mood_aggregation _).2.1 (by decide)
      ⟨str "happy", by decide, by decide⟩).1,
   ((C3_mood_aggregation _).2.1 (by decide)
      ⟨str "happy", by decide, by decide⟩).2.1,
   ((C3_mood_aggregation _).2.1 (by decide)
      ⟨str "happy", by decide, by decide⟩).2.2.1 (str "sad") (by decide),
   ((C3_mood_aggregation _).2.1 (by decide)
      ⟨str "happy", by decide, by decide⟩).2.2.2 (str "sad") (by decide)
      (by decide),
   (C3_mood_aggregation [str "neutral", str "neutral"]).2.2 (by decide)
      (by decide)⟩

/-- C6: calling `get_artists` with a mood that is empty or whitespace-only
after trimming returns `[]` immediately, with no request to the generation
backend (zero calls, zero sleeps). -/
theorem C6_blank_mood_no_request (cfg : GroqArtistConfig) (backend : Backend)
    (mood : Str) (language : Option Str) (count : Option Int)
    (h : pyStrip mood = []) :
    get_artists cfg backend mood language count = ⟨[], 0, []⟩ := by
  simp only [get_artists, if_pos h]

/-- Witness for C6: a whitespace-only mood yields the empty trace. -/
theorem C6_blank_mood_no_request_witness :
    get_artists (defaultGroqConfig (str "k")) (fun _ _ _ => .ok [])
      (str "   ") none none = ⟨[], 0, []⟩ :=
  C6_blank_mood_no_request _ _ _ _ _ (by decide)

/-- C7: parsing the three-line response `"1. Adele\n2. Drake\n3. Adele"`
with `target_count = 3` yields exactly `["Adele", "Drake"]`: numbering
markers are stripped and case-insensitive first-seen deduplication runs
before the length check and truncation. -/
theorem C7_parse_dedup_before_length :
    parse_artists (str "1. Adele\n2. Drake\n3. Adele") 3
      = [str "Adele", str "Drake"] := by decide

/-- C9: a falsy `count` (`None` or `0`) silently substitutes the
configuration default `enforce_count` (10 in the default configuration) as
the target count, so the `count` parameter cannot force a zero target. -/
theorem C9_falsy_count_uses_default (k : Str) (cfg : GroqArtistConfig)
    (backend : Backend) (mood : Str) (language : Option Str)
    (count : Option Int) :
    effTarget cfg none = cfg.enforce_count ∧
    effTarget cfg (some 0) = cfg.enforce_count ∧
    (defaultGroqConfig k).enforce_count = 10 ∧
    get_artists cfg backend mood language (some 0) =
      get_artists cfg backend mood language none ∧
    (cfg.enforce_count ≠ 0 → effTarget cfg count ≠ 0) := by
  refine ⟨rfl, rfl, rfl, ?_, ?_⟩
  · simp [get_artists, effTarget]
  · intro h
    match count with
    | none => exact h
    | some c =>
      by_cases hc : c = 0
      · simpa [effTarget, hc] using h
      · simp [effTarget, hc]

/-- Witness for C9: with the default configuration, `count = 0` and
`count = None` produce identical runs and a request for 5 artists cannot
become a request for 0. -/
theorem C9_falsy_count_uses_default_witness :
    effTarget (defaultGroqConfig (str "k")) (some 0)
      = (defaultGroqConfig (str "k")).enforce_count ∧
    get_artists (defaultGroqConfig (str "k")) (fun _ _ _ => .error ())
        (str "happy") none (some 0) =
      get_artists (defaultGroqConfig (str "k")) (fun _ _ _ => .error ())
        (str "happy") none none ∧
    effTarget (defaultGroqConfig (str "k")) (some 5) ≠ 0 :=
  ⟨(C9_falsy_count_uses_default (str "k") (defaultGroqConfig (str "k"))
      (fun _ _ _ => .error ()) (str "happy") none (some 5)).2.1,
   (C9_falsy_count_uses_default (str "k") (defaultGroqConfig (str "k"))
      (fun _ _ _ => .error ()) (str "happy") none (some 5)).2.2.2.1,
   (C9_falsy_count_uses_default (str "k") (defaultGroqConfig (str "k"))
      (fun _ _ _ => .error ()) (str "happy") none (some 5)).2.2.2.2
      (by decide)⟩

/-- C4: when the response reduces to exactly one non-empty line containing
at least one candidate separator, the line is re-split with effective
precedence pipe, then bullet, then comma; a multi-line (or empty) response
is never re-split. -/
theorem C4_separator_precedence (l : Str) (lines : List Str) :
    (containsSub (str " | ") l = true →
      resplitSingleLine [l] =
        ((splitOnSep (str " | ") l).map pyStrip).filter (fun p => p ≠ [])) ∧
    (containsSub (str " | ") l = false → containsSub (str " • ") l = true →
      resplitSingleLine [l] =
        ((splitOnSep (str " • ") l).map pyStrip).filter (fun p => p ≠ [])) ∧
    (containsSub (str " | ") l = false → containsSub (str " • ") l = false →
      containsSub (str ",") l = true →
      resplitSingleLine [l] =
        ((splitOnSep (str ",") l).map pyStrip).filter (fun p => p ≠ [])) ∧
    (lines.length ≠ 1 → resplitSingleLine lines = lines) := by
  refine ⟨?_, ?_, ?_, ?_⟩
  · intro hp
    simp [resplitSingleLine, hp]
  · intro hp hb
    simp [resplitSingleLine, hp, hb]
  · intro hp hb hc
    simp [resplitSingleLine, hp, hb, hc]
  · intro hlen
    match lines with
    | [] => rfl
    | [a] => exact absurd rfl hlen
    | a :: b :: rest => rfl

/-- Witness for C4: a line holding all three separators splits on the pipe;
a line holding bullet and comma splits on the bullet; a comma-only line
splits on the comma; a two-line list is untouched. -/
theorem C4_separator_precedence_witness :
    resplitSingleLine [str "Adele, Bono • Cyndi | Drake"] =
      ((splitOnSep (str " | ") (str "Adele, Bono • Cyndi | Drake")).map
        pyStrip).filter (fun p => p ≠ []) ∧
    resplitSingleLine [str "Adele, Bono • Cyndi"] =
      ((splitOnSep (str " • ") (str "Adele, Bono • Cyndi")).map
        pyStrip).filter (fun p => p ≠ []) ∧
    resplitSingleLine [str "Adele, Bono"] =
      ((splitOnSep (str ",") (str "Adele, Bono")).map
        pyStrip).filter (fun p => p ≠ []) ∧
    resplitSingleLine [str "Adele", str "Bono"] = [str "Adele", str "Bono"] :=
  ⟨(C4_separator_precedence (str "Adele, Bono • Cyndi | Drake") []).1
      (by decide),
   (C4_separator_precedence (str "Adele, Bono • Cyndi") []).2.1
      (by decide) (by decide),
   (C4_separator_precedence (str "Adele, Bono") []).2.2.1
      (by decide) (by decide) (by decide),
   (C4_separator_precedence [] [str "Adele", str "Bono"]).2.2.2
      (by decide)⟩

theorem getArtistsGo_result_length (cfg : GroqArtistConfig)
    (backend : Backend) (mood : Str) (language : Option Str) (tc : Int)
    (attempts : Nat) : ∀ n attempt,
    (getArtistsGo cfg backend mood language tc attempts attempt n).result ≠ [] →
    (((getArtistsGo cfg backend mood language tc attempts attempt n).result.length :
      Int) = tc) := by
  intro n
  induction n with
  | zero => intro attempt h; exact absurd rfl h
  | succ n ih =>
    intro attempt h
    simp only [getArtistsGo] at h ⊢
    cases hB : backend attempt (mkSystemPrompt tc attempt)
        (mkUserPrompt mood language) with
    | error e =>
      simp only [hB] at h ⊢
      by_cases hlt : attempt < attempts
      · rw [if_pos hlt] at h ⊢
        exact ih (attempt + 1) h
      · rw [if_neg hlt] at h ⊢
        exact absurd rfl h
    | ok raw =>
      simp only [hB] at h ⊢
      by_cases hlen : ((parse_artists raw tc).length : Int) = tc
      · rw [if_pos hlen] at h ⊢
        exact hlen
      · rw [if_neg hlen] at h ⊢
        by_cases hlt : attempt < attempts
        · rw [if_pos hlt] at h ⊢
          exact ih (attempt + 1) h
        · rw [if_neg hlt] at h ⊢
          exact ih (attempt + 1) h

theorem getArtistsGo_calls_pos (cfg : GroqArtistConfig) (backend : Backend)
    (mood : Str) (language : Option Str) (tc : Int)
    (attempts attempt n : Nat) :
    1 ≤ (getArtistsGo cfg backend mood language tc attempts attempt
      (n + 1)).calls := by
  simp only [getArtistsGo]
  cases hB : backend attempt (mkSystemPrompt tc attempt)
      (mkUserPrompt mood language) with
  | error e =>
    simp only [hB]
    split <;> simp
  | ok raw =>
    simp only [hB]
    split
    · simp
    · split <;> simp

theorem getArtistsGo_congr (cfg cfg' : GroqArtistConfig) (backend : Backend)
    (mood : Str) (language : Option Str) (tc : Int) (attempts : Nat)
    (h1 : cfg.backoff_initial = cfg'.backoff_initial)
    (h2 : cfg.backoff_max = cfg'.backoff_max) : ∀ n attempt,
    getArtistsGo cfg backend mood language tc attempts attempt n =
      getArtistsGo cfg' backend mood language tc attempts attempt n := by
  have hbd : ∀ a, backoffDelay cfg a = backoffDelay cfg' a := by
    intro a
    unfold backoffDelay
    rw [h1, h2]
  intro n
  induction n with
  | zero => intro attempt; rfl
  | succ n ih =>
    intro attempt
    simp only [getArtistsGo]
    cases hB : backend attempt (mkSystemPrompt tc attempt)
        (mkUserPrompt mood language) with
    | error e => simp only [hB, hbd, ih]
    | ok raw => simp only [hB, hbd, ih]

theorem getArtistsGo_all_error (cfg : GroqArtistConfig) (backend : Backend)
    (mood : Str) (language : Option Str) (tc : Int) (attempts : Nat)
    (hb : ∀ a s u, backend a s u = .error ()) : ∀ n attempt,
    1 ≤ attempt → attempt + n = attempts + 1 →
    getArtistsGo cfg backend mood language tc attempts attempt n =
      ⟨[], n, (List.range (n - 1)).map
        (fun k => backoffDelay cfg (attempt + k))⟩ := by
  intro n
  induction n with
  | zero => intro attempt _ _; simp [getArtistsGo]
  | succ n ih =>
    intro attempt h1 h2
    simp only [getArtistsGo, hb]
    match n, ih with
    | 0, _ =>
      have hlt : ¬ attempt < attempts := by omega
      rw [if_neg hlt]
      simp
    | m + 1, ih =>
      have hlt : attempt < attempts := by omega
      rw [if_pos hlt]
      rw [ih (attempt + 1) (by omega) (by omega)]
      have harg : ∀ k, attempt + 1 + k = attempt + (k + 1) := by omega
      simp only [Nat.add_sub_cancel, List.range_succ_eq_map, List.map_cons,
        List.map_map, Function.comp_def, harg, Nat.add_zero,
        Nat.succ_eq_add_one]

theorem pySliceTo_subset (l : List Str) (n : Int) (x : Str)
    (hx : x ∈ pySliceTo l n) : x ∈ l := by
  unfold pySliceTo at hx
  split at hx <;> exact List.take_subset _ _ hx

theorem cleanLoop_no_preamble (tc : Int) :
    ∀ (lines seen cleaned : List Str),
    (∀ x ∈ cleaned, hasPreamble x = false) →
    ∀ x ∈ cleanLoop tc lines seen cleaned, hasPreamble x = false := by
  intro lines
  induction lines with
  | nil => intro seen cleaned h x hx; exact h x hx
  | cons line rest ih =>
    intro seen cleaned h x hx
    simp only [cleanLoop] at hx
    by_cases hpre : hasPreamble (cleanItem line) = true
    · rw [if_pos hpre] at hx
      exact ih seen cleaned h x hx
    · rw [if_neg hpre] at hx
      have hitem : hasPreamble (cleanItem line) = false :=
        Bool.eq_false_iff.mpr hpre
      have hext : ∀ y ∈ cleaned ++ [cleanItem line], hasPreamble y = false := by
        intro y hy
        rcases List.mem_append.mp hy with hy' | hy'
        · exact h y hy'
        · rw [List.mem_singleton.mp hy']
          exact hitem
      split at hx
      · exact ih seen cleaned h x hx
      · split at hx
        · exact ih seen cleaned h x hx
        · split at hx
          · exact hext x hx
          · exact ih _ _ hext x hx

/-- C2: for every mood, language and target count, a non-empty list
returned by `get_artists` has length exactly equal to the effective target
count; an empty list is the only permitted short result. -/
theorem C2_nonempty_result_exact_length (cfg : GroqArtistConfig)
    (backend : Backend) (mood : Str) (language : Option Str)
    (count : Option Int)
    (h : (get_artists cfg backend mood language count).result ≠ []) :
    ((get_artists cfg backend mood language count).result.length : Int) =
      effTarget cfg count := by
  by_cases hm : pyStrip mood = []
  · simp only [get_artists, if_pos hm] at h
    exact absurd rfl h
  · simp only [get_artists, if_neg hm] at h ⊢
    exact getArtistsGo_result_length _ _ _ _ _ _ _ _ h

/-- Witness for C2: a backend that answers `"Adele\nDrake"` to a request
for two artists yields a non-empty result of the target length. -/
theorem C2_nonempty_result_exact_length_witness :
    ((get_artists (defaultGroqConfig (str "k"))
      (fun _ _ _ => .ok (str "Adele\nDrake")) (str "happy") none
      (some 2)).result.length : Int) =
      effTarget (defaultGroqConfig (str "k")) (some 2) :=
  C2_nonempty_result_exact_length _ _ _ _ _ (by decide)

/-- C5: if the backend raises on every attempt, `get_artists` returns `[]`
after exactly `retries` attempts (for `retries ≥ 1`), never propagating the
exception, and the sleeps between consecutive attempts are
`min(backoff_initial * 2^(attempt-1), backoff_max)` for attempts
`1 .. retries-1`, with no sleep after the final attempt. -/
theorem C5_all_errors_empty_result_backoff (cfg : GroqArtistConfig)
    (backend : Backend) (mood : Str) (language : Option Str)
    (count : Option Int) (hb : ∀ a s u, backend a s u = .error ())
    (hm : pyStrip mood ≠ []) (hr : 1 ≤ cfg.retries) :
    get_artists cfg backend mood language count =
      ⟨[], cfg.retries.toNat, (List.range (cfg.retries.toNat - 1)).map
        (fun k => min (cfg.backoff_initial * 2 ^ k) cfg.backoff_max)⟩ := by
  have hatt : effAttempts cfg = cfg.retries.toNat := by
    unfold effAttempts
    rw [max_eq_right hr]
  simp only [get_artists, if_neg hm]
  rw [getArtistsGo_all_error cfg backend (pyStrip mood) _ _ _ hb
    (effAttempts cfg) 1 (by omega) (by omega), hatt]
  congr 1
  apply List.map_congr_left
  intro k _
  unfold backoffDelay
  have hk : 1 + k - 1 = k := by omega
  rw [hk]

/-- Witness for C5: with the default configuration (3 retries, backoff
0.6s doubling and capped at 6s) and an always-raising backend, the run
makes 3 calls, returns `[]`, and sleeps twice. -/
theorem C5_all_errors_empty_result_backoff_witness :
    get_artists (defaultGroqConfig (str "k")) (fun _ _ _ => .error ())
      (str "happy") none none =
      ⟨[], (defaultGroqConfig (str "k")).retries.toNat,
        (List.range ((defaultGroqConfig (str "k")).retries.toNat - 1)).map
          (fun k => min ((defaultGroqConfig (str "k")).backoff_initial * 2 ^ k)
            (defaultGroqConfig (str "k")).backoff_max)⟩ :=
  C5_all_errors_empty_result_backoff _ _ _ _ _ (fun _ _ _ => rfl)
    (by decide) (by decide)

/-- C8: `_parse_artists` discards every candidate line whose lowercased
text (after marker and quote stripping) contains one of the preamble
marker substrings (`"artists:"`, `"here are"`, `"list:"`, `"output"`,
`"names:"`): no returned item contains a marker.  In particular parsing
`"Here are the artists:\nAdele\nDrake"` with target 2 returns
`["Adele", "Drake"]`. -/
theorem C8_preamble_lines_discarded :
    (∀ (raw : Str) (tc : Int) (x : Str), x ∈ parse_artists raw tc →
      hasPreamble x = false) ∧
    parse_artists (str "Here are the artists:\nAdele\nDrake") 2 =
      [str "Adele", str "Drake"] := by
  constructor
  · intro raw tc x hx
    simp only [parse_artists] at hx
    split at hx
    · cases hx
    · have hmem : x ∈ cleanLoop tc
          (resplitSingleLine
            (((splitOnSep (str "\n")
              ((stripFences (pyStrip raw)).filter (fun c => c ≠ '\r'))).filter
                (fun l => pyStrip l ≠ []))))
          [] [] := by
        split at hx
        · exact pySliceTo_subset _ _ _ hx
        · exact hx
      exact cleanLoop_no_preamble tc _ [] [] (fun y hy => absurd hy
        (List.not_mem_nil y)) x hmem
  · decide

/-- Witness for C8: the item `"Adele"` survives parsing and carries no
preamble marker. -/
theorem C8_preamble_lines_discarded_witness :
    hasPreamble (str "Adele") = false :=
  C8_preamble_lines_discarded.1 (str "Here are the artists:\nAdele\nDrake")
    2 (str "Adele") (by decide)

/-- C10: `get_artists` always makes at least one backend attempt once the
mood is valid: the attempt budget is `max(1, retries)`, so `retries ≤ 0`
behaves exactly as a single attempt, not as zero attempts or an immediate
empty return. -/
theorem C10_at_least_one_attempt (cfg : GroqArtistConfig) (backend : Backend)
    (mood : Str) (language : Option Str) (count : Option Int) :
    1 ≤ effAttempts cfg ∧
    (cfg.retries ≤ 0 → effAttempts cfg = 1) ∧
    (pyStrip mood ≠ [] →
      1 ≤ (get_artists cfg backend mood language count).calls) ∧
    (cfg.retries ≤ 0 →
      get_artists cfg backend mood language count =
        get_artists { cfg with retries := 1 } backend mood language count) := by
  have h1 : 1 ≤ effAttempts cfg := by
    unfold effAttempts
    rcases le_total cfg.retries 1 with h | h
    · rw [max_eq_left h]; decide
    · rw [max_eq_right h]; omega
  refine ⟨h1, ?_, ?_, ?_⟩
  · intro h
    unfold effAttempts
    rw [max_eq_left (by omega)]
    decide
  · intro hm
    simp only [get_artists, if_neg hm]
    obtain ⟨n, hn⟩ : ∃ n, effAttempts cfg = n + 1 :=
      ⟨effAttempts cfg - 1, by omega⟩
    rw [hn]
    exact getArtistsGo_calls_pos _ _ _ _ _ _ _ _
  · intro h
    have hatt : effAttempts cfg = 1 := by
      unfold effAttempts
      rw [max_eq_left (by omega)]
      decide
    have hatt' : effAttempts { cfg with retries := 1 } = 1 := by
      unfold effAttempts
      norm_num
    have htc : effTarget { cfg with retries := 1 } count =
        effTarget cfg count := by
      cases count <;> rfl
    simp only [get_artists]
    by_cases hm : pyStrip mood = []
    · rw [if_pos hm, if_pos hm]
    · rw [if_neg hm, if_neg hm, hatt, hatt', htc]
      exact getArtistsGo_congr cfg { cfg with retries := 1 } _ _ _ _ _
        rfl rfl _ _

/-- Witness for C10: with `retries = 0` the run still makes one call and
equals the `retries = 1` run. -/
theorem C10_at_least_one_attempt_witness :
    1 ≤ effAttempts { defaultGroqConfig (str "k") with retries := 0 } ∧
    effAttempts { defaultGroqConfig (str "k") with retries := 0 } = 1 ∧
    1 ≤ (get_artists { defaultGroqConfig (str "k") with retries := 0 }
      (fun _ _ _ => .error ()) (str "happy") none none).calls ∧
    get_artists { defaultGroqConfig (str "k") with retries := 0 }
      (fun _ _ _ => .error ()) (str "happy") none none =
      get_artists { { defaultGroqConfig (str "k") with retries := 0 } with
        retries := 1 } (fun _ _ _ => .error ()) (str "happy") none none :=
  ⟨(C10_at_least_one_attempt { defaultGroqConfig (str "k") with retries := 0 }
      (fun _ _ _ => .error ()) (str "happy") none none).1,
   (C10_at_least_one_attempt { defaultGroqConfig (str "k") with retries := 0 }
      (fun _ _ _ => .error ()) (str "happy") none none).2.1 (by decide),
   (C10_at_least_one_attempt { defaultGroqConfig (str "k") with retries := 0 }
      (fun _ _ _ => .error ()) (str "happy") none none).2.2.1 (by decide),
   (C10_at_least_one_attempt { defaultGroqConfig (str "k") with retries := 0 }
      (fun _ _ _ => .error ()) (str "happy") none none).2.2.2 (by decide)⟩

/-- C1 counterexample: with one attempt and a backend whose response
parses to the one-element list `["Adele"]` against `target_count = 2`,
the final (and only) attempt yields a non-matching cleaned list, and the
call returns `[]`, not the partial list `["Adele"]` the claim asserts. -/
theorem C1_counterexample_partial_not_returned :
    (get_artists { defaultGroqConfig (str "k") with retries := 1 }
      (fun _ _ _ => .ok (str "Adele")) (str "happy") none (some 2)).result
      = [] ∧
    parse_artists (str "Adele") 2 = [str "Adele"] ∧
    (get_artists { defaultGroqConfig (str "k") with retries := 1 }
      (fun _ _ _ => .ok (str "Adele")) (str "happy") none (some 2)).result
      ≠ [str "Adele"] :=
  ⟨by decide, by decide, by decide⟩

/-- C1 (amended): if the final retry attempt yields a cleaned artist list
whose length does not equal `target_count`, the call returns the EMPTY
list — the partial accumulated list is discarded, not returned and not an
error; only an exact-length list is treated as a definitive success that
ends retries early. -/
theorem C1_final_attempt_partial_discarded (cfg : GroqArtistConfig)
    (backend : Backend) (mood : Str) (language : Option Str) (tc : Int)
    (attempts attempt : Nat) (raw : Str)
    (hB : backend attempt (mkSystemPrompt tc attempt)
      (mkUserPrompt mood language) = .ok raw)
    (hfin : attempts ≤ attempt) :
    (((parse_artists raw tc).length : Int) ≠ tc →
      getArtistsGo cfg backend mood language tc attempts attempt 1 =
        ⟨[], 1, []⟩) ∧
    (((parse_artists raw tc).length : Int) = tc →
      getArtistsGo cfg backend mood language tc attempts attempt 1 =
        ⟨parse_artists raw tc, 1, []⟩) := by
  constructor
  · intro hlen
    simp only [getArtistsGo, hB]
    rw [if_neg hlen, if_neg (by omega)]
  · intro hlen
    simp only [getArtistsGo, hB]
    rw [if_pos hlen]

/-- Witness for C1 (amended): a lone final attempt parsing to `["Adele"]`
returns `⟨[], 1, []⟩` when the target is 2, and returns the exact list
when the target is 1. -/
theorem C1_final_attempt_partial_discarded_witness :
    getArtistsGo (defaultGroqConfig (str "k"))
      (fun _ _ _ => .ok (str "Adele")) (str "happy") none 2 1 1 1 =
      ⟨[], 1, []⟩ ∧
    getArtistsGo (defaultGroqConfig (str "k"))
      (fun _ _ _ => .ok (str "Adele")) (str "happy") none 1 1 1 1 =
      ⟨[str "Adele"], 1, []⟩ :=
  ⟨(C1_final_attempt_partial_discarded (defaultGroqConfig (str "k"))
      (fun _ _ _ => .ok (str "Adele")) (str "happy") none 2 1 1 (str "Adele")
      rfl (Nat.le_refl 1)).1 (by decide),
   (C1_final_attempt_partial_discarded (defaultGroqConfig (str "k"))
      (fun _ _ _ => .ok (str "Adele")) (str "happy") none 1 1 1 (str "Adele")
      rfl (Nat.le_refl 1)).2 (by decide)⟩
